import Mathlib

/-!
Verification development for the tekton-assist failure-diagnosis core.

The definitions below are a shallow embedding of the Go source:
* `pkg/types/inspector.go` — the output record types;
* `pkg/inspector/inspector.go` — `InspectTaskRun`, `InspectPipelineRun`
  and their helpers (`getSucceededConditionFields`, `firstFailedStep`,
  `resolveFailedContainerName`, `extractErrorSnippet`,
  `classifyGetError`, `determinePipelineRunPhase`, `isTaskRunFailed`,
  `analyzePipelineRunConditions`);
* `pkg/cache` — `allowNamespace` / `NamespaceIgnorePattern` and the
  namespace filtering applied to list results and watch events.

Remote calls (the Kubernetes `Get`, `List` and log fetches) are passed
in as explicit arguments (`Except`/`Option` results), so the functions
are pure while following the Go control flow line by line.
-/

namespace TektonAssist

/-- A status condition: embeds `knative.dev/pkg/apis.Condition` as used by
`tr.Status.Conditions` / `pr.Status.Conditions` (the fields the source
reads: Type, Status, Reason, Message). -/
structure Condition where
  ctype : String
  status : String
  reason : String
  message : String
deriving Repr, DecidableEq

/-- Terminated container state: embeds `corev1.ContainerStateTerminated`
restricted to the `ExitCode` field the source reads (Go `int32`,
modelled as `Int`; no arithmetic is performed on it). -/
structure ContainerStateTerminated where
  exitCode : Int
deriving Repr, DecidableEq

/-- One step status: embeds `pipelinev1.StepState` restricted to the
fields the source reads (`Name`, `Terminated`, `Container`). -/
structure StepState where
  name : String
  terminated : Option ContainerStateTerminated
  container : String
deriving Repr, DecidableEq

/-- The part of `pipelinev1.TaskRunStatus` that the inspector reads:
`Conditions`, `Steps`, `PodName`. -/
structure TaskRunStatus where
  conditions : List Condition
  steps : List StepState
  podName : String
deriving Repr, DecidableEq

/-- A TaskRun: name, namespace, and the status fields the source reads. -/
structure TaskRun where
  name : String
  ns : String
  status : TaskRunStatus
deriving Repr, DecidableEq

/-- `types.StepInfo`. -/
structure StepInfo where
  name : String
  exitCode : Int
deriving Repr, DecidableEq

/-- The Go zero value of `types.StepInfo`. -/
def StepInfo.zero : StepInfo := { name := "", exitCode := 0 }

/-- `types.ErrorInfo`. -/
structure ErrorInfo where
  etype : String
  status : String
  reason : String
  message : String
  logSnippet : String
deriving Repr, DecidableEq

/-- The Go zero value of `types.ErrorInfo`. -/
def ErrorInfo.zero : ErrorInfo :=
  { etype := "", status := "", reason := "", message := "", logSnippet := "" }

/-- `types.TaskRunDebugInfo`. -/
structure TaskRunDebugInfo where
  taskRun : String
  ns : String
  succeeded : Bool
  failedStep : StepInfo
  error : ErrorInfo
deriving Repr, DecidableEq

/-- The kinds of remote `Get` errors the source distinguishes via
`apierrors.IsNotFound` / `IsForbidden` / `IsUnauthorized`. -/
inductive GetErrorKind where
  | notFound
  | forbidden
  | unauthorized
  | other
deriving Repr, DecidableEq

/-- A remote `Get` error: its apimachinery classification plus the string
returned by `err.Error()`. -/
structure GetError where
  kind : GetErrorKind
  msg : String
deriving Repr, DecidableEq

/-- `classifyGetError` (inspector.go lines 146-157). -/
def classifyGetError (err : GetError) : String :=
  if err.kind = GetErrorKind.notFound then "NotFound"
  else if err.kind = GetErrorKind.forbidden then "Forbidden"
  else if err.kind = GetErrorKind.unauthorized then "Unauthorized"
  else "Unknown"

/-- The four condition fields the source extracts together. -/
structure ConditionFields where
  ctype : String
  status : String
  reason : String
  message : String
deriving Repr, DecidableEq

/-- `getSucceededConditionFields` (inspector.go lines 161-168): the first
condition whose Type is "Succeeded"; `none` plays the role of `ok=false`. -/
def getSucceededConditionFields (tr : TaskRun) : Option ConditionFields :=
  match tr.status.conditions.find? (fun c => c.ctype == "Succeeded") with
  | some c => some { ctype := c.ctype, status := c.status, reason := c.reason, message := c.message }
  | none => none

/-- One pass of `firstFailedStep` over the step statuses: first step whose
`Terminated` is set with a non-zero exit code. -/
def firstFailedStepPass : List StepState → Option StepInfo
  | [] => none
  | s :: rest =>
    match s.terminated with
    | some term => if term.exitCode ≠ 0 then some { name := s.name, exitCode := term.exitCode }
                   else firstFailedStepPass rest
    | none => firstFailedStepPass rest

/-- `firstFailedStep` (inspector.go lines 171-187): the source runs two
textually identical passes over `tr.Status.Steps` (the second is a
fallback comment artifact), so the embedding composes the pass twice. -/
def firstFailedStep (tr : TaskRun) : Option StepInfo :=
  match firstFailedStepPass tr.status.steps with
  | some r => some r
  | none => firstFailedStepPass tr.status.steps

/-- `resolveFailedContainerName` (inspector.go lines 192-205). -/
def resolveFailedContainerName (tr : TaskRun) (stepName : String) : String :=
  match tr.status.steps.find? (fun s => s.name == stepName) with
  | some s => if s.container ≠ "" then s.container else "step-" ++ stepName
  | none => if stepName ≠ "" then "step-" ++ stepName else ""

/-- `unicode.IsSpace` restricted to Latin-1 (the characters Go's
`strings.TrimSpace` strips; higher Unicode space runes are irrelevant to
the development): space, tab, newline, vertical tab, form feed, carriage
return, NEL, NBSP. -/
def goIsSpace (c : Char) : Bool :=
  c = ' ' || c = '\t' || c = '\n' || c = Char.ofNat 11 || c = Char.ofNat 12 ||
  c = '\r' || c = Char.ofNat 133 || c = Char.ofNat 160

/-- `strings.TrimSpace(l) == ""`: the line is all whitespace. -/
def isBlankLine (l : String) : Bool := l.toList.all goIsSpace

/-- `sub` is a prefix of `l` (character lists). -/
def charsPrefixOf : List Char → List Char → Bool
  | [], _ => true
  | _ :: _, [] => false
  | a :: as, b :: bs => a = b && charsPrefixOf as bs

/-- `sub` occurs contiguously in `hay` (character lists). -/
def charsContains (sub : List Char) : List Char → Bool
  | [] => charsPrefixOf sub []
  | c :: rest => charsPrefixOf sub (c :: rest) || charsContains sub rest

/-- `strings.Contains s sub` (character-level; identical on ASCII data). -/
def strContains (s sub : String) : Bool := charsContains sub.toList s.toList

/-- `strings.Split(s, "\n")` — split on newline keeping empty fields
(structural recursion over the character list; `acc` holds the current
field reversed). -/
def splitLinesAux : List Char → List Char → List String
  | [], acc => [String.mk acc.reverse]
  | c :: rest, acc =>
    if c = '\n' then String.mk acc.reverse :: splitLinesAux rest []
    else splitLinesAux rest (c :: acc)

/-- The line list `strings.Split(logText, "\n")` yields. -/
def splitLines (s : String) : List String := splitLinesAux s.toList []

/-- `strings.ToLower` (character-wise; identical on ASCII data). -/
def strToLower (s : String) : String := String.mk (s.toList.map Char.toLower)

/-- The keyword list of `extractErrorSnippet` (inspector.go line 228). -/
def snippetKeywords : List String := ["error", "fatal", "panic", "fail", "exit code"]

/-- Whether a line matches one of the keywords after `strings.ToLower`. -/
def lineMatchesKeyword (l : String) : Bool :=
  snippetKeywords.any (fun kw => strContains (strToLower l) kw)

/-- The `matchIdx` loop of `extractErrorSnippet` (inspector.go lines
229-241): scanning from the end, the index of the last line containing a
keyword; `none` plays the role of `matchIdx = -1`. -/
def lastKeywordIdx : List String → Option Nat
  | [] => none
  | l :: rest =>
    match lastKeywordIdx rest with
    | some i => some (i + 1)
    | none => if lineMatchesKeyword l then some 0 else none

/-- The window arithmetic of `extractErrorSnippet` for the matched case
(inspector.go lines 244-258): center `n` lines on `matchIdx`, clamping
to `[0, len)`. -/
def snippetWindow (len matchIdx n : Int) : Int × Int :=
  let half := n / 2
  let start0 := matchIdx - half
  let start1 := if start0 < 0 then 0 else start0
  let end0 := start1 + n
  if end0 > len then
    let end1 := len
    let start2 := end1 - n
    let start3 := if start2 < 0 then 0 else start2
    (start3, end1)
  else
    (start1, end0)

/-- Drop blank lines from both edges: the two index-advancing trim loops
of `extractErrorSnippet` (inspector.go lines 266-271) expressed on the
sliced list. -/
def trimBlankEdges (ls : List String) : List String :=
  ((ls.dropWhile isBlankLine).reverse.dropWhile isBlankLine).reverse

/-- `lines[start:end]` trimmed of blank edges and joined with newlines
(inspector.go lines 266-272). -/
def renderSnippet (lines : List String) (start stop : Int) : String :=
  String.intercalate "\n" (trimBlankEdges ((lines.drop start.toNat).take (stop - start).toNat))

/-- The body of `extractErrorSnippet` after `strings.Split(logText, "\n")`. -/
def extractFromLines (lines : List String) (n : Int) : String :=
  if lines.length = 0 then ""
  else
    match lastKeywordIdx lines with
    | some m =>
      let w := snippetWindow (lines.length : Int) (m : Int) n
      renderSnippet lines w.1 w.2
    | none =>
      let start : Int := if (lines.length : Int) > n then (lines.length : Int) - n else 0
      renderSnippet lines start (lines.length : Int)

/-- `extractErrorSnippet` (inspector.go lines 220-273). -/
def extractErrorSnippet (logText : String) (n : Int) : String :=
  if n ≤ 0 then ""
  else extractFromLines (splitLines logText) n

/-- `InspectTaskRun` (inspector.go lines 95-144). The remote `Get` result
is passed in as `fetched`; the log client is passed in as `fetchLogs
namespace podName container tailLines`, returning `none` on fetch error.
The Go receiver's `kube` client is always non-nil (every constructor
builds it), so the `i.kube != nil` guard is constantly true here. The
returned pair mirrors Go's `(types.TaskRunDebugInfo, error)`. -/
def InspectTaskRun (fetchLogs : String → String → String → Int → Option String)
    (ns name : String) (fetched : Except GetError TaskRun) :
    TaskRunDebugInfo × Option GetError :=
  match fetched with
  | Except.error err =>
    ({ taskRun := name, ns := ns, succeeded := false, failedStep := StepInfo.zero,
       error := { etype := classifyGetError err, status := "Error", reason := "",
                  message := err.msg, logSnippet := err.msg } }, some err)
  | Except.ok tr =>
    let cf := getSucceededConditionFields tr
    let condType := match cf with | some f => f.ctype | none => ""
    let condStatus := match cf with | some f => f.status | none => ""
    let condReason := match cf with | some f => f.reason | none => ""
    let condMessage := match cf with | some f => f.message | none => ""
    let succeeded : Bool := match cf with | some _ => condStatus == "True" | none => false
    if succeeded then
      ({ taskRun := name, ns := ns, succeeded := true,
         failedStep := StepInfo.zero, error := ErrorInfo.zero }, none)
    else
      let failedStep := match firstFailedStep tr with
        | some s => s
        | none => StepInfo.zero
      let baseError : ErrorInfo :=
        { etype := condType, status := condStatus, reason := condReason,
          message := condMessage, logSnippet := condMessage }
      let finalError :=
        if tr.status.podName ≠ "" ∧ failedStep.name ≠ "" then
          let container := resolveFailedContainerName tr failedStep.name
          if container ≠ "" then
            match fetchLogs ns tr.status.podName container 200 with
            | some raw =>
              let snip := extractErrorSnippet raw 10
              if snip ≠ "" then { baseError with logSnippet := snip } else baseError
            | none => baseError
          else baseError
        else baseError
      ({ taskRun := name, ns := ns, succeeded := false,
         failedStep := failedStep, error := finalError }, none)

/-- A PipelineRun: name, namespace and the status fields the source
reads (`Conditions`, `StartTime`, `CompletionTime`; times modelled as
epoch seconds). -/
structure PipelineRun where
  name : String
  ns : String
  conditions : List Condition
  startTime : Option Int
  completionTime : Option Int
deriving Repr, DecidableEq

/-- `types.TaskRunSummary`. -/
structure TaskRunSummary where
  name : String
  ns : String
  reason : String
  message : String
deriving Repr, DecidableEq

/-- `types.PipelineRunStatus` (times as epoch seconds; the source's
condition conversion copies type/status/reason/message verbatim). -/
structure PipelineRunStatus where
  phase : String
  startTime : Option Int
  completionTime : Option Int
  durationSeconds : Int
  conditions : List Condition
deriving Repr, DecidableEq

/-- `types.PipelineRunDebugInfo` (the metadata fields the claims touch:
name and namespace). -/
structure PipelineRunDebugInfo where
  prName : String
  prNs : String
  status : PipelineRunStatus
  failedTaskRuns : List TaskRunSummary
  analysis : String
deriving Repr, DecidableEq

/-- `determinePipelineRunPhase` (inspector.go lines 380-394): note that a
"Succeeded" condition with an unrecognized status falls through the
switch and the loop continues. -/
def determinePipelineRunPhase : List Condition → String
  | [] => "Unknown"
  | c :: rest =>
    if c.ctype == "Succeeded" then
      if c.status == "True" then "Succeeded"
      else if c.status == "False" then "Failed"
      else if c.status == "Unknown" then "Running"
      else determinePipelineRunPhase rest
    else determinePipelineRunPhase rest

/-- `buildPipelineRunStatus` (inspector.go lines 344-377): duration is
computed only when both timestamps are present. -/
def buildPipelineRunStatus (pr : PipelineRun) : PipelineRunStatus :=
  let duration : Int :=
    match pr.startTime, pr.completionTime with
    | some s, some c => c - s
    | _, _ => 0
  { phase := determinePipelineRunPhase pr.conditions
    startTime := pr.startTime
    completionTime := pr.completionTime
    durationSeconds := duration
    conditions := pr.conditions }

/-- `isTaskRunFailed` (inspector.go lines 397-404). -/
def isTaskRunFailed (tr : TaskRun) : Bool :=
  tr.status.conditions.any (fun c => c.ctype == "Succeeded" && c.status == "False")

/-- `getTaskRunConditionFields` (inspector.go lines 407-414); textually
identical to `getSucceededConditionFields`. -/
def getTaskRunConditionFields (tr : TaskRun) : Option ConditionFields :=
  match tr.status.conditions.find? (fun c => c.ctype == "Succeeded") with
  | some c => some { ctype := c.ctype, status := c.status, reason := c.reason, message := c.message }
  | none => none

/-- `analyzePipelineRunConditions` (inspector.go lines 417-442): the
first condition with type "Succeeded" and status "False" is classified
by its reason against a fixed enumeration. -/
def analyzePipelineRunConditions : List Condition → String
  | [] => "PipelineRun failed for an unknown reason."
  | c :: rest =>
    if c.ctype == "Succeeded" && c.status == "False" then
      if c.reason == "CouldntGetPipeline" then
        "Pipeline resource could not be found or accessed."
      else if c.reason == "PipelineValidationFailed" then
        "Pipeline validation failed: " ++ c.message
      else if c.reason == "CouldntGetTask" then
        "One or more tasks referenced in the pipeline could not be found."
      else if c.reason == "InvalidWorkspaceBindings" then
        "Workspace bindings are invalid or missing."
      else if c.reason == "ParameterMissing" then
        "Required parameters are missing from the PipelineRun."
      else if c.reason == "InvalidGraph" then
        "Pipeline has an invalid dependency graph (cycles or wrong order)."
      else
        "PipelineRun failed with reason \x27" ++ c.reason ++ "\x27: " ++ c.message
    else analyzePipelineRunConditions rest

/-- `InspectPipelineRun` (inspector.go lines 277-341). The remote `Get`
of the PipelineRun and the label-selected `List` of its TaskRuns are
passed in as `Except` results whose error side carries `err.Error()`;
`fmt.Errorf("...: %w", err)` wrapping becomes string concatenation. -/
def InspectPipelineRun (ns name : String)
    (fetchedPR : Except String PipelineRun)
    (listedTRs : Except String (List TaskRun)) :
    Except String PipelineRunDebugInfo :=
  match fetchedPR with
  | Except.error e =>
    Except.error ("failed to get pipelinerun " ++ ns ++ "/" ++ name ++ ": " ++ e)
  | Except.ok pr =>
    match listedTRs with
    | Except.error e =>
      Except.error ("failed to list taskruns for pipelinerun " ++ ns ++ "/" ++ name ++ ": " ++ e)
    | Except.ok items =>
      let failedTaskRuns : List TaskRunSummary :=
        (items.filter isTaskRunFailed).map (fun tr =>
          let cf := getTaskRunConditionFields tr
          { name := tr.name
            ns := tr.ns
            reason := match cf with | some f => f.reason | none => ""
            message := match cf with | some f => f.message | none => "" })
      let analysis : String :=
        if failedTaskRuns.length > 0 then
          "Found " ++ toString failedTaskRuns.length ++
            " failed TaskRuns. Run failure analysis on the individual taskrun failures: " ++
            String.intercalate ", " (failedTaskRuns.map (fun t => t.name))
        else if items.length = 0 then
          "No TaskRuns were created. PipelineRun failed during validation or scheduling. " ++
            analyzePipelineRunConditions pr.conditions
        else
          "PipelineRun failed but no TaskRuns reported failures. Found " ++
            toString items.length ++ " TaskRuns total."
      Except.ok
        { prName := pr.name
          prNs := pr.ns
          status := buildPipelineRunStatus pr
          failedTaskRuns := failedTaskRuns
          analysis := analysis }

/-- `NamespaceIgnorePattern.MatchString ns` (pkg/cache manager, line 43):
the regular expression is an alternation of anchored patterns, so a
match anywhere is a prefix match for the `^(openshift|kube)-` branch and
whole-string equality for each `^...$` branch. -/
def strStartsWith (s pre : String) : Bool := charsPrefixOf pre.toList s.toList

/-- `NamespaceIgnorePattern.MatchString ns` continued: see the doc
comment above; prefix tests are char-level (identical on these ASCII
patterns). -/
def namespaceIgnoreMatch (ns : String) : Bool :=
  strStartsWith ns "openshift-" || strStartsWith ns "kube-" ||
  ns == "open-cluster-management-agent-addon" || ns == "open-cluster-management-agent" ||
  ns == "dedicated-admin" || ns == "kube-node-lease" || ns == "kube-public" ||
  ns == "kube-system"

/-- `allowNamespace` (pkg/cache manager, line 46). -/
def allowNamespace (ns : String) : Bool := !namespaceIgnoreMatch ns

/-- An object as a mirror tracks it: the namespace+name key the informer
indexes by (the objects themselves are opaque snapshots). -/
structure MirrorObject where
  ns : String
  name : String
deriving Repr, DecidableEq

/-- `watch.EventType` restricted to the event kinds an informer applies
to its store. -/
inductive WatchEventType where
  | added
  | modified
  | deleted
deriving Repr, DecidableEq

/-- A watch event delivered by the remote store. -/
structure WatchEvent where
  etype : WatchEventType
  obj : MirrorObject
deriving Repr, DecidableEq

/-- The client-side list filtering every `ListFunc` in `NewManager`
performs (pkg/cache manager, e.g. lines 60-66): keep only items whose
namespace is allowed. -/
def filterListItems (items : List MirrorObject) : List MirrorObject :=
  items.filter (fun o => allowNamespace o.ns)

/-- The `watch.Filter` predicate every `WatchFunc` in `NewManager`
installs (pkg/cache manager, e.g. lines 76-85): an event whose object's
namespace is not allowed is dropped. -/
def filterWatchEvent (e : WatchEvent) : Option WatchEvent :=
  if allowNamespace e.obj.ns then some e else none

/-- Whether two tracked objects have the same namespace+name key. -/
def sameKey (a b : MirrorObject) : Bool := a.ns == b.ns && a.name == b.name

/-- Replace-or-append semantics of the informer store for Add/Update
events (client-go `SharedIndexInformer`, an external collaborator of
pkg/cache: the store keys objects by namespace/name). -/
def storeUpsert (idx : List MirrorObject) (o : MirrorObject) : List MirrorObject :=
  if idx.any (fun x => sameKey x o) then idx.map (fun x => if sameKey x o then o else x)
  else idx ++ [o]

/-- Removal semantics of the informer store for Delete events. -/
def storeDelete (idx : List MirrorObject) (o : MirrorObject) : List MirrorObject :=
  idx.filter (fun x => !sameKey x o)

/-- How the informer applies one (already filter-approved) watch event
to its store. -/
def applyWatchEvent (idx : List MirrorObject) (e : WatchEvent) : List MirrorObject :=
  match e.etype with
  | WatchEventType.added => storeUpsert idx e.obj
  | WatchEventType.modified => storeUpsert idx e.obj
  | WatchEventType.deleted => storeDelete idx e.obj

/-- The index a mirror holds after consuming an initial list result and a
sequence of watch events: the list is filtered client-side by
`allowNamespace` (the `ListFunc`s), and each event passes through the
`watch.Filter` predicate (the `WatchFunc`s) before the informer applies it. -/
def runMirror (items : List MirrorObject) (events : List WatchEvent) : List MirrorObject :=
  (events.filterMap filterWatchEvent).foldl applyWatchEvent (filterListItems items)

/-- Point lookup over a mirror index by namespace+name. -/
def mirrorGet (idx : List MirrorObject) (ns name : String) : Option MirrorObject :=
  idx.find? (fun o => o.ns == ns && o.name == name)

/-- Namespace-indexed listing over a mirror index (the
`NamespaceIndex` indexer every informer in `NewManager` registers). -/
def mirrorListByNamespace (idx : List MirrorObject) (ns : String) : List MirrorObject :=
  idx.filter (fun o => o.ns == ns)

/-! ### Characterizations of the execution path -/

/-- The Bool predicate a step satisfies exactly when the `firstFailedStep`
loop selects it: `Terminated` present with a non-zero exit code. -/
def stepFailing (s : StepState) : Bool :=
  match s.terminated with
  | some term => term.exitCode != 0
  | none => false

/-- The `StepInfo` the loop builds from a selected step. -/
def stepInfoOf (s : StepState) : StepInfo :=
  { name := s.name
    exitCode := match s.terminated with | some term => term.exitCode | none => 0 }

/-- The success boolean `InspectTaskRun` computes from the Succeeded
condition. -/
def succOf (tr : TaskRun) : Bool :=
  match getSucceededConditionFields tr with
  | some f => f.status == "True"
  | none => false

/-- The condition fields with Go zero-value defaults when no Succeeded
condition exists. -/
def condFieldsOrEmpty (tr : TaskRun) : ConditionFields :=
  match getSucceededConditionFields tr with
  | some f => f
  | none => { ctype := "", status := "", reason := "", message := "" }

/-- The `FailedStep` field value: first failed step or the zero value. -/
def failedStepOrZero (tr : TaskRun) : StepInfo :=
  match firstFailedStep tr with
  | some s => s
  | none => StepInfo.zero

/-- The `ErrorInfo` populated from the condition before log enrichment. -/
def baseErrorOf (tr : TaskRun) : ErrorInfo :=
  { etype := (condFieldsOrEmpty tr).ctype
    status := (condFieldsOrEmpty tr).status
    reason := (condFieldsOrEmpty tr).reason
    message := (condFieldsOrEmpty tr).message
    logSnippet := (condFieldsOrEmpty tr).message }

/-- The `ErrorInfo` after the best-effort log enrichment step. -/
def enrichedErrorOf (fetchLogs : String → String → String → Int → Option String)
    (ns : String) (tr : TaskRun) : ErrorInfo :=
  if tr.status.podName ≠ "" ∧ (failedStepOrZero tr).name ≠ "" then
    let container := resolveFailedContainerName tr (failedStepOrZero tr).name
    if container ≠ "" then
      match fetchLogs ns tr.status.podName container 200 with
      | some raw =>
        if extractErrorSnippet raw 10 ≠ "" then
          { baseErrorOf tr with logSnippet := extractErrorSnippet raw 10 }
        else baseErrorOf tr
      | none => baseErrorOf tr
    else baseErrorOf tr
  else baseErrorOf tr

theorem firstFailedStepPass_eq_find (l : List StepState) :
    firstFailedStepPass l = (l.find? stepFailing).map stepInfoOf := by
  induction l with
  | nil => rfl
  | cons s rest ih =>
    cases hterm : s.terminated with
    | none =>
      simp [firstFailedStepPass, List.find?_cons, stepFailing, hterm, ih]
    | some term =>
      by_cases he : term.exitCode = 0
      · simp [firstFailedStepPass, List.find?_cons, stepFailing, hterm, he, ih]
      · simp [firstFailedStepPass, List.find?_cons, stepFailing, hterm, he, stepInfoOf]

theorem firstFailedStep_eq_find (tr : TaskRun) :
    firstFailedStep tr = (tr.status.steps.find? stepFailing).map stepInfoOf := by
  unfold firstFailedStep
  rw [firstFailedStepPass_eq_find]
  cases tr.status.steps.find? stepFailing <;> rfl

theorem inspectTaskRun_ok_eq (fetchLogs : String → String → String → Int → Option String)
    (ns name : String) (tr : TaskRun) :
    InspectTaskRun fetchLogs ns name (Except.ok tr) =
      if succOf tr then
        ({ taskRun := name, ns := ns, succeeded := true,
           failedStep := StepInfo.zero, error := ErrorInfo.zero }, none)
      else
        ({ taskRun := name, ns := ns, succeeded := false,
           failedStep := failedStepOrZero tr, error := enrichedErrorOf fetchLogs ns tr }, none) := by
  unfold InspectTaskRun succOf failedStepOrZero enrichedErrorOf baseErrorOf condFieldsOrEmpty
  cases hcf : getSucceededConditionFields tr with
  | none => simp [hcf, failedStepOrZero]
  | some f =>
    by_cases hs : f.status == "True"
    · simp [hcf, hs]
    · simp [hcf, hs, failedStepOrZero]

theorem succOf_iff_first (tr : TaskRun) :
    succOf tr = true ↔
      ∃ c, tr.status.conditions.find? (fun c => c.ctype == "Succeeded") = some c ∧
        c.status = "True" := by
  unfold succOf getSucceededConditionFields
  cases hf : tr.status.conditions.find? (fun c => c.ctype == "Succeeded") with
  | none => simp
  | some c => simp [beq_iff_eq]

/-- C5: when the execution fetch fails, `InspectTaskRun` returns the
partial record (succeeded=false, `ErrorInfo` with the classified type,
status "Error" and the error string as message) together with the fetch
error, and the classification is one of NotFound / Forbidden /
Unauthorized / Unknown. -/
theorem inspectTaskRun_fetch_error_classified
    (fetchLogs : String → String → String → Int → Option String)
    (ns name : String) (e : GetError) :
    InspectTaskRun fetchLogs ns name (Except.error e) =
      ({ taskRun := name, ns := ns, succeeded := false, failedStep := StepInfo.zero,
         error := { etype := classifyGetError e, status := "Error", reason := "",
                    message := e.msg, logSnippet := e.msg } }, some e)
    ∧ classifyGetError e ∈ ["NotFound", "Forbidden", "Unauthorized", "Unknown"] := by
  refine ⟨rfl, ?_⟩
  rcases e with ⟨k, m⟩
  cases k <;> simp [classifyGetError]

/-- A TaskRun whose condition list carries two "Succeeded"-typed
conditions, the first False and the second True. -/
def trMultiSucceeded : TaskRun :=
  { name := "x", ns := "d",
    status :=
      { conditions :=
          [{ ctype := "Succeeded", status := "False", reason := "r", message := "m" },
           { ctype := "Succeeded", status := "True", reason := "r2", message := "m2" }],
        steps := [], podName := "" } }

/-- C1 counterexample: this execution's condition set does contain a
"Succeeded" condition of status "True", yet `InspectTaskRun` reports
succeeded=false, because only the first "Succeeded"-typed condition is
consulted. -/
theorem succeeded_iff_contains_counterexample :
    trMultiSucceeded.status.conditions.any
        (fun c => c.ctype == "Succeeded" && c.status == "True") = true
    ∧ (InspectTaskRun (fun _ _ _ _ => none) "d" "x"
        (Except.ok trMultiSucceeded)).1.succeeded = false := by
  exact ⟨rfl, rfl⟩

/-- C1 (amended): the returned `succeeded` is true iff the first
"Succeeded"-typed condition in sequence order exists and has status
"True"; in particular an execution with no "Succeeded" condition
(including an empty condition list) yields succeeded=false. -/
theorem inspectTaskRun_succeeded_iff_first_condition
    (fetchLogs : String → String → String → Int → Option String)
    (ns name : String) (tr : TaskRun) :
    (InspectTaskRun fetchLogs ns name (Except.ok tr)).1.succeeded = true ↔
      ∃ c, tr.status.conditions.find? (fun c => c.ctype == "Succeeded") = some c ∧
        c.status = "True" := by
  rw [inspectTaskRun_ok_eq]
  by_cases h : succOf tr
  · simp only [h, if_true]
    simpa using (succOf_iff_first tr).mp h
  · simp only [h, if_false, Bool.false_eq_true]
    constructor
    · intro hfalse
      exact absurd hfalse (by simp)
    · intro hr
      exact absurd ((succOf_iff_first tr).mpr hr) h

/-- C2: on a failed execution, the reported `failedStep` is the first
step in declared order whose terminated state is present with a non-zero
exit code. -/
theorem inspectTaskRun_first_failed_step
    (fetchLogs : String → String → String → Int → Option String)
    (ns name : String) (tr : TaskRun) (s : StepState)
    (hfail : (InspectTaskRun fetchLogs ns name (Except.ok tr)).1.succeeded = false)
    (hfind : tr.status.steps.find? stepFailing = some s) :
    (InspectTaskRun fetchLogs ns name (Except.ok tr)).1.failedStep = stepInfoOf s := by
  rw [inspectTaskRun_ok_eq] at hfail ⊢
  by_cases h : succOf tr
  · simp [h] at hfail
  · simp [h, failedStepOrZero, firstFailedStep_eq_find, hfind]

/-- A failed TaskRun with steps `a` (exit 0) and `b` (exit 1), both
terminated. -/
def trTwoSteps : TaskRun :=
  { name := "demo", ns := "default",
    status :=
      { conditions := [{ ctype := "Succeeded", status := "False", reason := "r", message := "m" }],
        steps := [{ name := "a", terminated := some { exitCode := 0 }, container := "" },
                  { name := "b", terminated := some { exitCode := 1 }, container := "" }],
        podName := "" } }

/-- C2 witness: for steps `[a exit 0, b exit 1]` the failed step is `b`. -/
theorem inspectTaskRun_first_failed_step_witness :
    (InspectTaskRun (fun _ _ _ _ => none) "default" "demo"
        (Except.ok trTwoSteps)).1.failedStep = { name := "b", exitCode := 1 } := by
  have h := inspectTaskRun_first_failed_step (fun _ _ _ _ => none) "default" "demo" trTwoSteps
    { name := "b", terminated := some { exitCode := 1 }, container := "" }
    (by decide) (by decide)
  exact h.trans (by decide)

/-- C10: the outcome of `InspectTaskRun` is determined solely by the
first "Succeeded"-typed condition: two condition lists with the same
first "Succeeded"-typed condition (all other status fields equal) give
identical results, so later "Succeeded"-typed conditions have no
effect. -/
theorem inspectTaskRun_first_succeeded_condition_determines
    (fetchLogs : String → String → String → Int → Option String)
    (ns name : String) (tr : TaskRun) (conds2 : List Condition)
    (h : tr.status.conditions.find? (fun c => c.ctype == "Succeeded") =
      conds2.find? (fun c => c.ctype == "Succeeded")) :
    InspectTaskRun fetchLogs ns name
        (Except.ok { tr with status := { tr.status with conditions := conds2 } }) =
      InspectTaskRun fetchLogs ns name (Except.ok tr) := by
  have hcf : getSucceededConditionFields { tr with status := { tr.status with conditions := conds2 } } =
      getSucceededConditionFields tr := by
    unfold getSucceededConditionFields
    rw [← h]
  rw [inspectTaskRun_ok_eq, inspectTaskRun_ok_eq]
  have hsuc : succOf { tr with status := { tr.status with conditions := conds2 } } = succOf tr := by
    unfold succOf
    rw [hcf]
  have hfs : failedStepOrZero { tr with status := { tr.status with conditions := conds2 } } =
      failedStepOrZero tr := rfl
  have herr : enrichedErrorOf fetchLogs ns { tr with status := { tr.status with conditions := conds2 } } =
      enrichedErrorOf fetchLogs ns tr := by
    unfold enrichedErrorOf baseErrorOf condFieldsOrEmpty
    rw [hcf, hfs]
    rfl
  rw [hsuc, hfs, herr]

/-- A failed TaskRun with a single "Succeeded" condition. -/
def trOneCond : TaskRun :=
  { name := "x", ns := "d",
    status :=
      { conditions := [{ ctype := "Succeeded", status := "False", reason := "r", message := "m" }],
        steps := [], podName := "" } }

/-- C10 witness: appending a second "Succeeded"-typed condition does not
change the result. -/
theorem inspectTaskRun_first_succeeded_condition_determines_witness :
    InspectTaskRun (fun _ _ _ _ => none) "d" "x"
        (Except.ok { trOneCond with status := { trOneCond.status with conditions :=
          [{ ctype := "Succeeded", status := "False", reason := "r", message := "m" },
           { ctype := "Succeeded", status := "True", reason := "r2", message := "m2" }] } }) =
      InspectTaskRun (fun _ _ _ _ => none) "d" "x" (Except.ok trOneCond) := by
  exact inspectTaskRun_first_succeeded_condition_determines (fun _ _ _ _ => none) "d" "x"
    trOneCond _ (by decide)

theorem enrichedErrorOf_logSnippet
    (fetchLogs : String → String → String → Int → Option String)
    (ns : String) (tr : TaskRun) :
    (enrichedErrorOf fetchLogs ns tr).logSnippet = (condFieldsOrEmpty tr).message ∨
      ∃ raw, fetchLogs ns tr.status.podName
          (resolveFailedContainerName tr (failedStepOrZero tr).name) 200 = some raw ∧
        (enrichedErrorOf fetchLogs ns tr).logSnippet = extractErrorSnippet raw 10 ∧
        extractErrorSnippet raw 10 ≠ "" := by
  unfold enrichedErrorOf
  by_cases h1 : tr.status.podName ≠ "" ∧ (failedStepOrZero tr).name ≠ ""
  · by_cases h2 : resolveFailedContainerName tr (failedStepOrZero tr).name ≠ ""
    · cases hfetch : fetchLogs ns tr.status.podName
        (resolveFailedContainerName tr (failedStepOrZero tr).name) 200 with
      | none => left; simp [h1, h2, hfetch, baseErrorOf]
      | some raw =>
        by_cases h3 : extractErrorSnippet raw 10 = ""
        · left; simp [h1, h2, hfetch, h3, baseErrorOf]
        · right
          refine ⟨raw, rfl, ?_, h3⟩
          simp [h1, h2, hfetch, h3]
    · left; simp [h1, h2, baseErrorOf]
  · left; simp [h1, baseErrorOf]

/-- C4: for a successfully fetched execution, `failedStep` and `error`
are populated only when succeeded=false (on success both stay Go zero
values), and the log snippet defaults to the Succeeded condition's
message, being replaced only when a log fetch succeeds (and yields a
non-empty excerpt). -/
theorem inspectTaskRun_population_invariant
    (fetchLogs : String → String → String → Int → Option String)
    (ns name : String) (tr : TaskRun) :
    ((InspectTaskRun fetchLogs ns name (Except.ok tr)).1.succeeded = true →
      (InspectTaskRun fetchLogs ns name (Except.ok tr)).1.failedStep = StepInfo.zero ∧
      (InspectTaskRun fetchLogs ns name (Except.ok tr)).1.error = ErrorInfo.zero)
    ∧ ((InspectTaskRun fetchLogs ns name (Except.ok tr)).1.succeeded = false →
      (InspectTaskRun fetchLogs ns name (Except.ok tr)).1.error.logSnippet =
          (condFieldsOrEmpty tr).message ∨
        ∃ raw, fetchLogs ns tr.status.podName
            (resolveFailedContainerName tr (failedStepOrZero tr).name) 200 = some raw ∧
          (InspectTaskRun fetchLogs ns name (Except.ok tr)).1.error.logSnippet =
            extractErrorSnippet raw 10 ∧
          extractErrorSnippet raw 10 ≠ "") := by
  rw [inspectTaskRun_ok_eq]
  by_cases h : succOf tr
  · simp [h]
  · simp only [h, Bool.false_eq_true, if_false]
    constructor
    · intro hcontr
      simp at hcontr
    · intro _
      exact enrichedErrorOf_logSnippet fetchLogs ns tr

/-- A TaskRun that succeeded (Succeeded condition of status "True"). -/
def trSucceededEx : TaskRun :=
  { name := "ok", ns := "d",
    status :=
      { conditions := [{ ctype := "Succeeded", status := "True", reason := "Succeeded", message := "all good" }],
        steps := [{ name := "a", terminated := some { exitCode := 0 }, container := "" }],
        podName := "pod-ok" } }

/-- C4 witness: a succeeded execution keeps `failedStep` and `error` at
their zero values. -/
theorem inspectTaskRun_population_invariant_witness :
    (InspectTaskRun (fun _ _ _ _ => none) "d" "ok" (Except.ok trSucceededEx)).1.failedStep =
        StepInfo.zero ∧
      (InspectTaskRun (fun _ _ _ _ => none) "d" "ok" (Except.ok trSucceededEx)).1.error =
        ErrorInfo.zero := by
  exact (inspectTaskRun_population_invariant (fun _ _ _ _ => none) "d" "ok" trSucceededEx).1
    (by decide)

/-- C8: log enrichment is best-effort and never fatal — no error is
returned for a fetched execution; enrichment is skipped (snippet stays
the condition message) when the pod name or the failed-step name is
unknown; the container is the step's explicit reference or
"step-"+stepName; only the 200-line tail of the log is consulted; and a
failed log fetch leaves the snippet at the condition message. -/
theorem inspectTaskRun_log_enrichment_best_effort
    (fetchLogs : String → String → String → Int → Option String)
    (ns name : String) (tr : TaskRun)
    (hfail : succOf tr = false) :
    (InspectTaskRun fetchLogs ns name (Except.ok tr)).2 = none
    ∧ ((tr.status.podName = "" ∨ (failedStepOrZero tr).name = "") →
      (InspectTaskRun fetchLogs ns name (Except.ok tr)).1.error.logSnippet =
        (condFieldsOrEmpty tr).message)
    ∧ (∀ stepName s, tr.status.steps.find? (fun st => st.name == stepName) = some s →
      resolveFailedContainerName tr stepName =
        if s.container ≠ "" then s.container else "step-" ++ stepName)
    ∧ (∀ stepName, tr.status.steps.find? (fun st => st.name == stepName) = none →
      stepName ≠ "" → resolveFailedContainerName tr stepName = "step-" ++ stepName)
    ∧ (∀ fl2 : String → String → String → Int → Option String,
      (∀ a b c, fetchLogs a b c 200 = fl2 a b c 200) →
      InspectTaskRun fetchLogs ns name (Except.ok tr) =
        InspectTaskRun fl2 ns name (Except.ok tr))
    ∧ (fetchLogs ns tr.status.podName
        (resolveFailedContainerName tr (failedStepOrZero tr).name) 200 = none →
      (InspectTaskRun fetchLogs ns name (Except.ok tr)).1.error.logSnippet =
        (condFieldsOrEmpty tr).message) := by
  simp only [inspectTaskRun_ok_eq]
  simp only [hfail, Bool.false_eq_true, if_false]
  refine ⟨trivial, ?_, ?_, ?_, ?_, ?_⟩
  · intro h
    unfold enrichedErrorOf
    have hcond : ¬(tr.status.podName ≠ "" ∧ (failedStepOrZero tr).name ≠ "") := by
      rcases h with h | h
      · intro hc; exact hc.1 h
      · intro hc; exact hc.2 h
    simp [hcond, baseErrorOf]
  · intro stepName s hfind
    unfold resolveFailedContainerName
    rw [hfind]
  · intro stepName hfind hne
    unfold resolveFailedContainerName
    rw [hfind]
    simp [hne]
  · intro fl2 hagree
    have h5 : enrichedErrorOf fetchLogs ns tr = enrichedErrorOf fl2 ns tr := by
      unfold enrichedErrorOf
      simp only [hagree]
    rw [h5]
  · intro hnone
    unfold enrichedErrorOf
    by_cases h1 : tr.status.podName ≠ "" ∧ (failedStepOrZero tr).name ≠ ""
    · by_cases h2 : resolveFailedContainerName tr (failedStepOrZero tr).name ≠ ""
      · simp [h1, h2, hnone, baseErrorOf]
      · simp [h1, h2, baseErrorOf]
    · simp [h1, baseErrorOf]

/-- A failed TaskRun with a known pod and failed step (for the log
enrichment path). -/
def trWithPod : TaskRun :=
  { name := "demo2", ns := "default",
    status :=
      { conditions := [{ ctype := "Succeeded", status := "False", reason := "Failed", message := "boom" }],
        steps := [{ name := "build", terminated := some { exitCode := 1 }, container := "" }],
        podName := "demo2-pod" } }

/-- C8 witness: with a failing log client the snippet stays the
condition message. -/
theorem inspectTaskRun_log_enrichment_best_effort_witness :
    (InspectTaskRun (fun _ _ _ _ => none) "default" "demo2"
        (Except.ok trWithPod)).1.error.logSnippet = (condFieldsOrEmpty trWithPod).message := by
  have h := inspectTaskRun_log_enrichment_best_effort (fun _ _ _ _ => none) "default" "demo2"
    trWithPod (by decide)
  exact h.2.2.2.2.2 rfl

/-- C6: `InspectPipelineRun` raises an error exactly when the
PipelineRun fetch or the TaskRun list fails; the raised error embeds the
namespace, the name and the underlying cause, and no record is returned
in that case; when both succeed, a record is returned. -/
theorem inspectPipelineRun_error_propagation (ns name : String)
    (fetchedPR : Except String PipelineRun) (listedTRs : Except String (List TaskRun)) :
    (∀ e, fetchedPR = Except.error e →
      InspectPipelineRun ns name fetchedPR listedTRs =
        Except.error ("failed to get pipelinerun " ++ ns ++ "/" ++ name ++ ": " ++ e))
    ∧ (∀ pr e, fetchedPR = Except.ok pr → listedTRs = Except.error e →
      InspectPipelineRun ns name fetchedPR listedTRs =
        Except.error ("failed to list taskruns for pipelinerun " ++ ns ++ "/" ++ name ++ ": " ++ e))
    ∧ (∀ pr trs, fetchedPR = Except.ok pr → listedTRs = Except.ok trs →
      ∃ info, InspectPipelineRun ns name fetchedPR listedTRs = Except.ok info) := by
  refine ⟨?_, ?_, ?_⟩
  · intro e he
    subst he
    rfl
  · intro pr e h1 h2
    subst h1
    subst h2
    rfl
  · intro pr trs h1 h2
    subst h1
    subst h2
    exact ⟨_, rfl⟩

/-- C6 witness: a failed PipelineRun fetch surfaces the wrapped error. -/
theorem inspectPipelineRun_error_propagation_witness :
    InspectPipelineRun "ns1" "pr1" (Except.error "boom") (Except.ok []) =
      Except.error ("failed to get pipelinerun " ++ "ns1" ++ "/" ++ "pr1" ++ ": " ++ "boom") := by
  exact (inspectPipelineRun_error_propagation "ns1" "pr1" (Except.error "boom")
    (Except.ok [])).1 "boom" rfl

/-- The reasons `analyzePipelineRunConditions` recognizes explicitly. -/
def recognizedPipelineFailureReasons : List String :=
  ["CouldntGetPipeline", "PipelineValidationFailed", "CouldntGetTask",
   "InvalidWorkspaceBindings", "ParameterMissing", "InvalidGraph"]

theorem analyzePipelineRunConditions_eq_find (conds : List Condition) :
    analyzePipelineRunConditions conds =
      match conds.find? (fun c => c.ctype == "Succeeded" && c.status == "False") with
      | some c =>
        if c.reason == "CouldntGetPipeline" then
          "Pipeline resource could not be found or accessed."
        else if c.reason == "PipelineValidationFailed" then
          "Pipeline validation failed: " ++ c.message
        else if c.reason == "CouldntGetTask" then
          "One or more tasks referenced in the pipeline could not be found."
        else if c.reason == "InvalidWorkspaceBindings" then
          "Workspace bindings are invalid or missing."
        else if c.reason == "ParameterMissing" then
          "Required parameters are missing from the PipelineRun."
        else if c.reason == "InvalidGraph" then
          "Pipeline has an invalid dependency graph (cycles or wrong order)."
        else
          "PipelineRun failed with reason \x27" ++ c.reason ++ "\x27: " ++ c.message
      | none => "PipelineRun failed for an unknown reason." := by
  induction conds with
  | nil => rfl
  | cons c rest ih =>
    by_cases h : (c.ctype == "Succeeded" && c.status == "False") = true
    · simp [analyzePipelineRunConditions, List.find?_cons, h]
    · simp [analyzePipelineRunConditions, List.find?_cons, h, ih]

/-- The failed-member summaries `InspectPipelineRun` collects. -/
def failedSummariesOf (items : List TaskRun) : List TaskRunSummary :=
  (items.filter isTaskRunFailed).map (fun tr =>
    let cf := getTaskRunConditionFields tr
    { name := tr.name
      ns := tr.ns
      reason := match cf with | some f => f.reason | none => ""
      message := match cf with | some f => f.message | none => "" })

/-- The narrative string `InspectPipelineRun` selects. -/
def analysisOf (pr : PipelineRun) (items : List TaskRun) : String :=
  if (failedSummariesOf items).length > 0 then
    "Found " ++ toString (failedSummariesOf items).length ++
      " failed TaskRuns. Run failure analysis on the individual taskrun failures: " ++
      String.intercalate ", " ((failedSummariesOf items).map (fun t => t.name))
  else if items.length = 0 then
    "No TaskRuns were created. PipelineRun failed during validation or scheduling. " ++
      analyzePipelineRunConditions pr.conditions
  else
    "PipelineRun failed but no TaskRuns reported failures. Found " ++
      toString items.length ++ " TaskRuns total."

theorem inspectPipelineRun_ok_eq (ns name : String) (pr : PipelineRun) (items : List TaskRun) :
    InspectPipelineRun ns name (Except.ok pr) (Except.ok items) =
      Except.ok
        { prName := pr.name
          prNs := pr.ns
          status := buildPipelineRunStatus pr
          failedTaskRuns := failedSummariesOf items
          analysis := analysisOf pr items } := rfl

theorem failedSummariesOf_length (items : List TaskRun) :
    (failedSummariesOf items).length = (items.filter isTaskRunFailed).length := by
  simp [failedSummariesOf]

theorem failedSummariesOf_names (items : List TaskRun) :
    (failedSummariesOf items).map (fun t => t.name) =
      (items.filter isTaskRunFailed).map (fun tr => tr.name) := by
  simp [failedSummariesOf, List.map_map, Function.comp]

/-- C7: the analysis narrative is exactly one of three mutually
exclusive classes, chosen in order: (a) failed members exist — count and
names; (b) no members at all — reason-classified explanation, with
"ParameterMissing" yielding the fixed parameter text and an unrecognized
reason a generic message carrying the reason verbatim; (c) members exist
but none failed — inconsistency report. -/
theorem inspectPipelineRun_narrative (ns name : String) (pr : PipelineRun)
    (items : List TaskRun) (info : PipelineRunDebugInfo)
    (hres : InspectPipelineRun ns name (Except.ok pr) (Except.ok items) = Except.ok info) :
    ((items.filter isTaskRunFailed).length > 0 →
      info.analysis = "Found " ++ toString (items.filter isTaskRunFailed).length ++
        " failed TaskRuns. Run failure analysis on the individual taskrun failures: " ++
        String.intercalate ", " ((items.filter isTaskRunFailed).map (fun tr => tr.name)))
    ∧ ((items.filter isTaskRunFailed).length = 0 → items.length = 0 →
      info.analysis = "No TaskRuns were created. PipelineRun failed during validation or scheduling. " ++
        analyzePipelineRunConditions pr.conditions)
    ∧ ((items.filter isTaskRunFailed).length = 0 → items.length ≠ 0 →
      info.analysis = "PipelineRun failed but no TaskRuns reported failures. Found " ++
        toString items.length ++ " TaskRuns total.")
    ∧ (∀ c, pr.conditions.find? (fun c => c.ctype == "Succeeded" && c.status == "False") = some c →
      (c.reason = "ParameterMissing" →
        analyzePipelineRunConditions pr.conditions =
          "Required parameters are missing from the PipelineRun.")
      ∧ (c.reason ∉ recognizedPipelineFailureReasons →
        analyzePipelineRunConditions pr.conditions =
          "PipelineRun failed with reason \x27" ++ c.reason ++ "\x27: " ++ c.message)) := by
  rw [inspectPipelineRun_ok_eq, Except.ok.injEq] at hres
  subst hres
  refine ⟨?_, ?_, ?_, ?_⟩
  · intro h
    show analysisOf pr items = _
    unfold analysisOf
    rw [if_pos (by rw [failedSummariesOf_length]; exact h)]
    rw [failedSummariesOf_length, failedSummariesOf_names]
  · intro h0 h
    show analysisOf pr items = _
    unfold analysisOf
    rw [if_neg (by rw [failedSummariesOf_length, h0]; simp), if_pos h]
  · intro h0 h
    show analysisOf pr items = _
    unfold analysisOf
    rw [if_neg (by rw [failedSummariesOf_length, h0]; simp), if_neg h]
  · intro c hfind
    constructor
    · intro hr
      rw [analyzePipelineRunConditions_eq_find, hfind]
      simp [hr]
    · intro hr
      simp only [recognizedPipelineFailureReasons, List.mem_cons, List.not_mem_nil] at hr
      push_neg at hr
      rw [analyzePipelineRunConditions_eq_find, hfind]
      simp [hr.1, hr.2.1, hr.2.2.1, hr.2.2.2.1, hr.2.2.2.2.1, hr.2.2.2.2.2.1]

/-- A PipelineRun that failed before creating TaskRuns, with reason
ParameterMissing. -/
def prPM : PipelineRun :=
  { name := "p", ns := "d",
    conditions := [{ ctype := "Succeeded", status := "False", reason := "ParameterMissing", message := "msg" }],
    startTime := none, completionTime := none }

/-- The debug record `InspectPipelineRun` produces for `prPM` with no
TaskRuns. -/
def infoPM : PipelineRunDebugInfo :=
  { prName := "p", prNs := "d",
    status :=
      { phase := "Failed", startTime := none, completionTime := none, durationSeconds := 0,
        conditions := [{ ctype := "Succeeded", status := "False", reason := "ParameterMissing", message := "msg" }] },
    failedTaskRuns := [],
    analysis := "No TaskRuns were created. PipelineRun failed during validation or scheduling. Required parameters are missing from the PipelineRun." }

/-- C7 witness: zero members with reason ParameterMissing yields the
fixed parameter narrative. -/
theorem inspectPipelineRun_narrative_witness :
    analyzePipelineRunConditions prPM.conditions =
      "Required parameters are missing from the PipelineRun." := by
  have h := inspectPipelineRun_narrative "d" "p" prPM [] infoPM (by rfl)
  exact (h.2.2.2 { ctype := "Succeeded", status := "False", reason := "ParameterMissing", message := "msg" }
    (by rfl)).1 rfl

theorem storeUpsert_mem (idx : List MirrorObject) (o x : MirrorObject)
    (hx : x ∈ storeUpsert idx o) : x ∈ idx ∨ x = o := by
  unfold storeUpsert at hx
  by_cases h : idx.any (fun y => sameKey y o)
  · rw [if_pos h] at hx
    rcases List.mem_map.mp hx with ⟨y, hy, hxy⟩
    by_cases hk : sameKey y o
    · right
      rw [if_pos hk] at hxy
      exact hxy.symm
    · left
      rw [if_neg hk] at hxy
      exact hxy ▸ hy
  · rw [if_neg h] at hx
    rcases List.mem_append.mp hx with h1 | h1
    · exact Or.inl h1
    · right
      simpa using h1

theorem applyWatchEvent_mem (idx : List MirrorObject) (e : WatchEvent) (x : MirrorObject)
    (hx : x ∈ applyWatchEvent idx e) : x ∈ idx ∨ x = e.obj := by
  rcases e with ⟨ty, obj⟩
  cases ty with
  | added => exact storeUpsert_mem idx obj x hx
  | modified => exact storeUpsert_mem idx obj x hx
  | deleted =>
    simp only [applyWatchEvent, storeDelete] at hx
    exact Or.inl (List.mem_filter.mp hx).1

theorem runMirrorAux_invariant (events : List WatchEvent) (idx : List MirrorObject)
    (hidx : ∀ o ∈ idx, allowNamespace o.ns = true) :
    ∀ o ∈ (events.filterMap filterWatchEvent).foldl applyWatchEvent idx,
      allowNamespace o.ns = true := by
  induction events generalizing idx with
  | nil => simpa using hidx
  | cons e rest ih =>
    cases hfe : filterWatchEvent e with
    | none =>
      simp only [List.filterMap_cons, hfe]
      exact ih idx hidx
    | some e2 =>
      simp only [List.filterMap_cons, hfe, List.foldl_cons]
      apply ih
      intro o ho
      rcases applyWatchEvent_mem _ _ _ ho with h | h
      · exact hidx o h
      · unfold filterWatchEvent at hfe
        by_cases ha : allowNamespace e.obj.ns = true
        · rw [if_pos ha] at hfe
          have he2 : e = e2 := by injection hfe
          rw [h, ← he2]
          exact ha
        · rw [if_neg ha] at hfe
          cases hfe

/-- C9: an object whose namespace the filter denies never enters a
mirror's index, whatever the list result and watch event sequence: the
filter is applied to list items and to every watch event (an Added event
for a denied namespace is dropped), so no mirror query ever returns such
an object — e.g. a "kube-system" lookup is always `none`. -/
theorem mirror_denied_namespace_invariant (items : List MirrorObject)
    (events : List WatchEvent) :
    (∀ o, o ∈ runMirror items events → allowNamespace o.ns = true)
    ∧ (∀ ns name o, mirrorGet (runMirror items events) ns name = some o →
      allowNamespace o.ns = true)
    ∧ (∀ ns o, o ∈ mirrorListByNamespace (runMirror items events) ns →
      allowNamespace o.ns = true)
    ∧ (∀ e : WatchEvent, allowNamespace e.obj.ns = false → filterWatchEvent e = none)
    ∧ (∀ name, mirrorGet (runMirror items events) "kube-system" name = none) := by
  have hinv : ∀ o ∈ runMirror items events, allowNamespace o.ns = true := by
    apply runMirrorAux_invariant
    intro o ho
    exact (List.mem_filter.mp ho).2
  refine ⟨hinv, ?_, ?_, ?_, ?_⟩
  · intro ns name o hget
    exact hinv o (List.mem_of_find?_eq_some hget)
  · intro ns o ho
    exact hinv o (List.mem_filter.mp ho).1
  · intro e he
    unfold filterWatchEvent
    simp [he]
  · intro name
    cases hget : mirrorGet (runMirror items events) "kube-system" name with
    | none => rfl
    | some o =>
      exfalso
      have hmem := List.mem_of_find?_eq_some hget
      have hp := List.find?_some hget
      have hns : o.ns = "kube-system" := by
        simp only [Bool.and_eq_true, beq_iff_eq] at hp
        exact hp.1
      have hallow := hinv o hmem
      rw [hns] at hallow
      exact absurd hallow (by decide)

/-- C9 witness: an Added watch event for a "kube-system" object is
dropped, so the subsequent lookup misses. -/
theorem mirror_denied_namespace_invariant_witness :
    mirrorGet (runMirror []
        [{ etype := WatchEventType.added, obj := { ns := "kube-system", name := "a" } }])
      "kube-system" "a" = none := by
  exact (mirror_denied_namespace_invariant []
    [{ etype := WatchEventType.added, obj := { ns := "kube-system", name := "a" } }]).2.2.2.2 "a"

theorem lastKeywordIdx_none_spec (lines : List String)
    (h : lastKeywordIdx lines = none) :
    ∀ j, j < lines.length → lineMatchesKeyword (lines.getD j "") = false := by
  induction lines with
  | nil =>
    intro j hj
    simp at hj
  | cons l rest ih =>
    intro j hj
    cases hr : lastKeywordIdx rest with
    | some i => simp [lastKeywordIdx, hr] at h
    | none =>
      simp only [lastKeywordIdx, hr] at h
      by_cases hl : lineMatchesKeyword l
      · simp [hl] at h
      · cases j with
        | zero => simpa using hl
        | succ j =>
          rw [List.getD_cons_succ]
          exact ih hr j (by simpa using hj)

theorem lastKeywordIdx_some_spec (lines : List String) (m : Nat)
    (h : lastKeywordIdx lines = some m) :
    m < lines.length ∧ lineMatchesKeyword (lines.getD m "") = true ∧
      ∀ j, m < j → j < lines.length → lineMatchesKeyword (lines.getD j "") = false := by
  induction lines generalizing m with
  | nil => cases h
  | cons l rest ih =>
    cases hr : lastKeywordIdx rest with
    | some i =>
      simp only [lastKeywordIdx, hr] at h
      have hm : m = i + 1 := (Option.some.inj h).symm
      subst hm
      obtain ⟨h1, h2, h3⟩ := ih i hr
      refine ⟨by simpa using h1, by simpa using h2, ?_⟩
      intro j hj hjl
      cases j with
      | zero => omega
      | succ j =>
        rw [List.getD_cons_succ]
        exact h3 j (by omega) (by simpa using hjl)
    | none =>
      simp only [lastKeywordIdx, hr] at h
      by_cases hl : lineMatchesKeyword l
      · rw [if_pos hl] at h
        have hm : m = 0 := (Option.some.inj h).symm
        subst hm
        refine ⟨by simp, by simpa using hl, ?_⟩
        intro j hj hjl
        cases j with
        | zero => omega
        | succ j =>
          rw [List.getD_cons_succ]
          exact lastKeywordIdx_none_spec rest hr j (by simpa using hjl)
      · rw [if_neg hl] at h
        cases h

theorem snippetWindow_bounds (len m n : Int) (hn : 0 < n) (hm : 0 ≤ m) (hml : m < len) :
    0 ≤ (snippetWindow len m n).1 ∧ (snippetWindow len m n).1 ≤ (snippetWindow len m n).2 ∧
      (snippetWindow len m n).2 ≤ len ∧
      (snippetWindow len m n).2 - (snippetWindow len m n).1 ≤ n := by
  simp only [snippetWindow]
  split_ifs <;> dsimp only <;> omega

theorem snippetWindow_unclamped (len m n : Int) (hn : 0 < n)
    (h1 : n / 2 ≤ m) (h2 : m + (n - n / 2) ≤ len) :
    snippetWindow len m n = (m - n / 2, m - n / 2 + n) := by
  have ha : ¬(m - n / 2 < 0) := by omega
  have hb : ¬(m - n / 2 + n > len) := by omega
  simp only [snippetWindow, if_neg ha, if_neg hb]

theorem head?_dropWhile_not {α : Type} (p : α → Bool) (l : List α) (a : α)
    (h : (l.dropWhile p).head? = some a) : p a = false := by
  induction l with
  | nil => cases h
  | cons x xs ih =>
    rw [List.dropWhile_cons] at h
    by_cases hx : p x
    · rw [if_pos hx] at h
      exact ih h
    · rw [if_neg hx] at h
      have hax : a = x := (Option.some.inj h).symm
      subst hax
      simpa using hx

theorem getLast?_dropWhile_ne_nil {α : Type} (p : α → Bool) (l : List α)
    (h : l.dropWhile p ≠ []) : (l.dropWhile p).getLast? = l.getLast? := by
  induction l with
  | nil => simp at h
  | cons x xs ih =>
    rw [List.dropWhile_cons] at h ⊢
    by_cases hx : p x
    · rw [if_pos hx] at h ⊢
      rw [ih h]
      have hxs : xs ≠ [] := by
        intro h0
        rw [h0] at h
        simp at h
      cases xs with
      | nil => exact absurd rfl hxs
      | cons y ys => rw [List.getLast?_cons_cons]
    · rw [if_neg hx]

theorem trimBlankEdges_getLast_not_blank (ls : List String) (h : String)
    (hh : (trimBlankEdges ls).getLast? = some h) : isBlankLine h = false := by
  unfold trimBlankEdges at hh
  rw [List.getLast?_reverse] at hh
  exact head?_dropWhile_not _ _ _ hh

theorem trimBlankEdges_head_not_blank (ls : List String) (h : String)
    (hh : (trimBlankEdges ls).head? = some h) : isBlankLine h = false := by
  unfold trimBlankEdges at hh
  rw [List.head?_reverse] at hh
  have hne : (ls.dropWhile isBlankLine).reverse.dropWhile isBlankLine ≠ [] := by
    intro h0
    rw [h0] at hh
    cases hh
  rw [getLast?_dropWhile_ne_nil _ _ hne, List.getLast?_reverse] at hh
  exact head?_dropWhile_not _ _ _ hh

/-- C3: for positive `n`, `extractErrorSnippet` splits the log into
lines; when some line matches a keyword it renders the `snippetWindow`
around the LAST matching line — a window that is in bounds, at most `n`
lines, and exactly `[m - n/2, m - n/2 + n)` whenever that fits (so for
1000 lines, a sole match at 500 and n=10 it spans [495,505)); with no
matching line it renders the last `n` lines; and the rendered slice is
trimmed of leading and trailing blank lines. -/
theorem extractErrorSnippet_heuristic (logText : String) (n : Int) (hn : 0 < n) :
    extractErrorSnippet logText n = extractFromLines (splitLines logText) n
    ∧ (∀ m, lastKeywordIdx (splitLines logText) = some m →
      (m < (splitLines logText).length ∧
        lineMatchesKeyword ((splitLines logText).getD m "") = true ∧
        ∀ j, m < j → j < (splitLines logText).length →
          lineMatchesKeyword ((splitLines logText).getD j "") = false)
      ∧ extractErrorSnippet logText n =
          renderSnippet (splitLines logText)
            (snippetWindow ((splitLines logText).length : Int) (m : Int) n).1
            (snippetWindow ((splitLines logText).length : Int) (m : Int) n).2
      ∧ (0 ≤ (snippetWindow ((splitLines logText).length : Int) (m : Int) n).1 ∧
          (snippetWindow ((splitLines logText).length : Int) (m : Int) n).1 ≤
            (snippetWindow ((splitLines logText).length : Int) (m : Int) n).2 ∧
          (snippetWindow ((splitLines logText).length : Int) (m : Int) n).2 ≤
            ((splitLines logText).length : Int) ∧
          (snippetWindow ((splitLines logText).length : Int) (m : Int) n).2 -
            (snippetWindow ((splitLines logText).length : Int) (m : Int) n).1 ≤ n)
      ∧ (n / 2 ≤ (m : Int) →
          (m : Int) + (n - n / 2) ≤ ((splitLines logText).length : Int) →
          snippetWindow ((splitLines logText).length : Int) (m : Int) n =
            ((m : Int) - n / 2, (m : Int) - n / 2 + n)))
    ∧ (lastKeywordIdx (splitLines logText) = none →
      extractErrorSnippet logText n =
        renderSnippet (splitLines logText)
          (if (((splitLines logText).length : Int)) > n then
            ((splitLines logText).length : Int) - n else 0)
          ((splitLines logText).length : Int))
    ∧ (∀ ls : List String,
        (∀ h, (trimBlankEdges ls).head? = some h → isBlankLine h = false) ∧
        (∀ h, (trimBlankEdges ls).getLast? = some h → isBlankLine h = false)) := by
  have hsplit : extractErrorSnippet logText n = extractFromLines (splitLines logText) n := by
    unfold extractErrorSnippet
    rw [if_neg (by omega)]
  refine ⟨hsplit, ?_, ?_, ?_⟩
  · intro m hm
    obtain ⟨h1, h2, h3⟩ := lastKeywordIdx_some_spec _ _ hm
    have hlen : (splitLines logText).length ≠ 0 := by omega
    have heq : extractErrorSnippet logText n =
        renderSnippet (splitLines logText)
          (snippetWindow ((splitLines logText).length : Int) (m : Int) n).1
          (snippetWindow ((splitLines logText).length : Int) (m : Int) n).2 := by
      rw [hsplit]
      unfold extractFromLines
      rw [if_neg hlen, hm]
    refine ⟨⟨h1, h2, h3⟩, heq, ?_, ?_⟩
    · exact snippetWindow_bounds _ _ _ hn (by omega) (by exact_mod_cast h1)
    · intro hw1 hw2
      exact snippetWindow_unclamped _ _ _ hn hw1 hw2
  · intro hm
    rw [hsplit]
    unfold extractFromLines
    by_cases hlen : (splitLines logText).length = 0
    · rw [if_pos hlen]
      have hnil : splitLines logText = [] := List.length_eq_zero.mp hlen
      rw [hnil]
      unfold renderSnippet
      rw [List.drop_nil, List.take_nil]
      rfl
    · rw [if_neg hlen, hm]
  · intro ls
    exact ⟨fun h hh => trimBlankEdges_head_not_blank ls h hh,
      fun h hh => trimBlankEdges_getLast_not_blank ls h hh⟩

/-- C3 witness: seven lines with the only keyword match at index 2 and
n=4 yield the window [0,4). -/
theorem extractErrorSnippet_heuristic_witness :
    extractErrorSnippet "a\nb\nERROR: x\nc\nd\ne\nf" 4 = "a\nb\nERROR: x\nc" := by
  have h := extractErrorSnippet_heuristic "a\nb\nERROR: x\nc\nd\ne\nf" 4 (by decide)
  have h2 := h.2.1 2 (by decide)
  exact h2.2.1.trans (by decide)

end TektonAssist
